import Mathlib

/-!
Verification of the medicine cross-referencing backend (`server.js`).

The JavaScript source is shallowly embedded below: pure helper functions
become Lean functions over `String` / `List Char`, JavaScript numbers are
modelled as exact rationals (`ℚ`, with a separate `NumVal.nan` value for
`NaN`), nullable values become `Option`, and the Prisma store is modelled
as a list of records with the handlers' `where` clauses as list filters.
JavaScript string builtins (`trim`, `split`, `toUpperCase`, ...) are
modelled on their ASCII fragment by structural functions on `List Char` so
that every definition evaluates inside the kernel.
-/

namespace GenericBE

/-- A spreadsheet cell as produced by the external tabular parser: a cell is
either absent (JS `undefined`), a string, or a number.  JavaScript numbers
are modelled as exact rationals. -/
inductive Cell where
  | absent : Cell
  | str : String → Cell
  | num : ℚ → Cell
deriving DecidableEq

/-- A value stored in a numeric column of a medicine record: SQL `NULL`,
JavaScript `NaN` (which `parseFloat`/`parseInt` produce on unparseable
text), or an actual number. -/
inductive NumVal where
  | null : NumVal
  | nan : NumVal
  | num : ℚ → NumVal
deriving DecidableEq

/-- The whitespace class used by JS `String.prototype.trim`, `parseFloat`
and the regex `\s` (ASCII fragment). -/
def isJsWs (c : Char) : Bool :=
  c = ' ' || c = '\t' || c = '\n' || c = '\r' || c = '\x0b' || c = '\x0c'

/-- JS `String.prototype.trim` on character lists. -/
def jsTrimL (l : List Char) : List Char :=
  ((l.dropWhile isJsWs).reverse.dropWhile isJsWs).reverse

/-- JS `s.trim()`. -/
def jsTrim (s : String) : String :=
  ⟨jsTrimL s.data⟩

/-- JS `String.prototype.toUpperCase` on one character (ASCII fragment). -/
def upperChar (c : Char) : Char :=
  if 'a' ≤ c ∧ c ≤ 'z' then Char.ofNat (c.toNat - 32) else c

/-- JS `String.prototype.toLowerCase` on one character (ASCII fragment). -/
def lowerChar (c : Char) : Char :=
  if 'A' ≤ c ∧ c ≤ 'Z' then Char.ofNat (c.toNat + 32) else c

/-- JS `s.toUpperCase()` (ASCII fragment). -/
def jsToUpper (s : String) : String :=
  ⟨s.data.map upperChar⟩

/-- JS `s.toLowerCase()` (ASCII fragment). -/
def jsToLower (s : String) : String :=
  ⟨s.data.map lowerChar⟩

/-- JS `s.split(" ")` on character lists: split at every single space
(`"".split(" ")` gives `[""]`, adjacent spaces give empty fields). -/
def splitSp : List Char → List (List Char)
  | [] => [[]]
  | ' ' :: r => [] :: splitSp r
  | c :: r =>
    match splitSp r with
    | h :: t => (c :: h) :: t
    | [] => [[c]]

/-- JS `parts.join(" ")` on character lists. -/
def joinSp : List (List Char) → List Char
  | [] => []
  | [p] => p
  | p :: ps => p ++ ' ' :: joinSp ps

/-- Decimal digit run to a natural number. -/
def digitsToNat (ds : List Char) : Nat :=
  ds.foldl (fun a c => a * 10 + (c.toNat - 48)) 0

/-- Model of the JavaScript builtin `parseFloat` on its decimal fragment:
skip leading whitespace, optional sign, then the longest prefix of the form
`digits [. digits] [e|E [sign] digits]`; `none` models the `NaN` result.
(The `Infinity` literal and non-ASCII whitespace are not modelled; no code
path under verification feeds them in.) -/
def jsParseFloat (s : String) : Option ℚ :=
  let cs := s.data.dropWhile isJsWs
  let sgncs : ℚ × List Char :=
    match cs with
    | '-' :: r => (-1, r)
    | '+' :: r => (1, r)
    | _ => (1, cs)
  let ip := sgncs.2.takeWhile Char.isDigit
  let cs2 := sgncs.2.dropWhile Char.isDigit
  let fpcs : List Char × List Char :=
    match cs2 with
    | '.' :: r => (r.takeWhile Char.isDigit, r.dropWhile Char.isDigit)
    | _ => ([], cs2)
  if ip.isEmpty && fpcs.1.isEmpty then none
  else
    let mant : ℚ := (digitsToNat ip : ℚ) + (digitsToNat fpcs.1 : ℚ) / (10 : ℚ) ^ fpcs.1.length
    let withExp : ℚ :=
      match fpcs.2 with
      | e :: r =>
        if e = 'e' ∨ e = 'E' then
          let esgn : Bool × List Char :=
            match r with
            | '-' :: r2 => (true, r2)
            | '+' :: r2 => (false, r2)
            | _ => (false, r)
          let ed := esgn.2.takeWhile Char.isDigit
          if ed.isEmpty then mant
          else if esgn.1 then mant / (10 : ℚ) ^ digitsToNat ed
          else mant * (10 : ℚ) ^ digitsToNat ed
        else mant
      | [] => mant
    some (sgncs.1 * withExp)

/-- Model of the JavaScript builtin `parseInt` with no radix argument on
decimal input: skip leading whitespace, optional sign, longest digit
prefix; `none` models the `NaN` result.  (The `0x` hexadecimal prefix form
is not modelled; no code path under verification feeds it in.) -/
def jsParseInt (s : String) : Option ℤ :=
  let cs := s.data.dropWhile isJsWs
  let sgncs : Bool × List Char :=
    match cs with
    | '-' :: r => (true, r)
    | '+' :: r => (false, r)
    | _ => (false, cs)
  let ds := sgncs.2.takeWhile Char.isDigit
  if ds.isEmpty then none
  else some (if sgncs.1 then -(digitsToNat ds : ℤ) else (digitsToNat ds : ℤ))

/-- The handlers' numeric-field derivation
`row["PTR"] ? parseFloat(row["PTR"]) : null` (same for `MRP`): a falsy cell
(absent, empty string, the number 0) yields `null`, otherwise the cell is
parsed with `parseFloat`.  `parseFloat` applied to a number coerces it
through `String` and round-trips, so a non-zero numeric cell is kept. -/
def parseFloatCell : Cell → NumVal
  | .absent => .null
  | .str s =>
    if s = "" then .null
    else
      match jsParseFloat s with
      | some q => .num q
      | none => .nan
  | .num q => if q = 0 then .null else .num q

/-- The handlers' `row["SHIPPER SIZE"] ? parseInt(row["SHIPPER SIZE"]) : null`.
A non-zero numeric cell is coerced through `String` and truncated toward
zero by `parseInt` (exponent-notation renderings of extreme numbers are not
modelled). -/
def parseIntCell : Cell → NumVal
  | .absent => .null
  | .str s =>
    if s = "" then .null
    else
      match jsParseInt s with
      | some z => .num (z : ℚ)
      | none => .nan
  | .num q =>
    if q = 0 then .null
    else .num (if 0 ≤ q then ((Int.floor q : ℤ) : ℚ) else ((Int.ceil q : ℤ) : ℚ))

/-- `extractSalt` from `server.js`: `null`/empty input and the sentinel
tokens `#N/A`, `N/A`, `NA` (checked after `String(..).trim()`) give `null`;
otherwise split the trimmed string on single spaces, keep tokens up to the
first one containing a decimal digit, join with single spaces, trim,
uppercase, and return `null` if the result is empty. -/
def extractSalt (contents : Option String) : Option String :=
  match contents with
  | none => none
  | some s =>
    if s = "" then none
    else
      let contentsStr := jsTrim s
      if contentsStr = "#N/A" ∨ contentsStr = "N/A" ∨ contentsStr = "NA" ∨ contentsStr = ""
      then none
      else
        let parts := splitSp contentsStr.data
        let saltParts := parts.takeWhile (fun p => ¬ p.any Char.isDigit)
        let salt := (jsTrimL (joinSp saltParts)).map upperChar
        if salt = [] then none else some ⟨salt⟩

/-- `cleanContents` from `server.js`: `null`/empty input and the sentinel
tokens give `null`, otherwise the trimmed original string. -/
def cleanContents (contents : Option String) : Option String :=
  match contents with
  | none => none
  | some s =>
    if s = "" then none
    else
      let contentsStr := jsTrim s
      if contentsStr = "#N/A" ∨ contentsStr = "N/A" ∨ contentsStr = "NA" ∨ contentsStr = ""
      then none
      else some contentsStr

/-- Boolean test that `u` is a leading segment of `l` (character lists). -/
def prefixList : List Char → List Char → Bool
  | [], _ => true
  | _ :: _, [] => false
  | a :: as, b :: bs => a = b && prefixList as bs

/-- JS `String.prototype.includes` on character lists: `sub` occurs
contiguously somewhere in `l`. -/
def listContains : List Char → List Char → Bool
  | sub, [] => prefixList sub []
  | sub, l@(_ :: rest) => prefixList sub l || listContains sub rest

/-- JS `s.includes(sub)`. -/
def strIncludes (s sub : String) : Bool :=
  listContains sub.data s.data

/-- `detectType` from `server.js`: a falsy name gives `null`; otherwise the
uppercased name is tested against the keyword groups in source order, first
hit wins, `OTHER` if none hit. -/
def detectType (productName : Option String) : Option String :=
  match productName with
  | none => none
  | some s =>
    if s = "" then none
    else
      let name := jsToUpper s
      if strIncludes name "TAB" || strIncludes name "TABLET" then some "TABLET"
      else if strIncludes name "CAP" || strIncludes name "CAPSULE" then some "CAPSULE"
      else if strIncludes name "INJ" || strIncludes name "INJECTION" then some "INJECTION"
      else if strIncludes name "SYR" || strIncludes name "SYRUP"
              || strIncludes name "SUSP" || strIncludes name "SUSPENSION" then some "SYRUP"
      else if strIncludes name "CREAM" || strIncludes name "OINTMENT"
              || strIncludes name "GEL" then some "TOPICAL"
      else if strIncludes name "DROP" || strIncludes name "DROPS" then some "DROPS"
      else if strIncludes name "POWDER" || strIncludes name "SACHET" then some "POWDER"
      else if strIncludes name "INHALER" || strIncludes name "ROTACAP"
              || strIncludes name "RESPULE" then some "INHALER"
      else some "OTHER"

/-- Inner loop of the `levenshteinDistance` dynamic program from
`server.js`: given the current character `c` of `str1`, walk the remaining
characters of `str2` together with the previous matrix row; `left` is the
entry just computed in the current row.  The three `min` arguments are the
source's deletion, insertion and substitution costs in source order. -/
def levInner (c : Char) : List Char → List Nat → Nat → List Nat
  | y :: ys, pjm1 :: pj :: prest, left =>
    let cost := if c = y then 0 else 1
    let v := min (min (pj + 1) (left + 1)) (pjm1 + cost)
    v :: levInner c ys (pj :: prest) v
  | _, _, _ => []

/-- Outer loop of the dynamic program: fold the rows; row `i` starts with
`matrix[i][0] = i`. -/
def levRows (t : List Char) : List Char → List Nat → Nat → List Nat
  | [], row, _ => row
  | c :: cs, row, i => levRows t cs (i :: levInner c t row i) (i + 1)

/-- `levenshteinDistance` from `server.js`: the `(len1+1) × (len2+1)`
dynamic program, returning `matrix[len1][len2]` (the last entry of the last
row; row 0 is `0, 1, ..., len2`). -/
def levenshteinDistance (str1 str2 : String) : Nat :=
  (levRows str2.data str1.data (List.range (str2.data.length + 1)) 1).getLastD 0

/-- The textbook edit-distance recurrence (the same recurrence the matrix
of `levenshteinDistance` memoizes, read from the front of the strings).
Used as the proof-friendly description of the dynamic program. -/
def levRec : List Char → List Char → Nat
  | [], t => t.length
  | _ :: s, [] => s.length + 1
  | a :: s, b :: t =>
    min (min (levRec s (b :: t) + 1) (levRec (a :: s) t + 1))
      (levRec s t + (if a = b then 0 else 1))
termination_by s t => s.length + t.length

/-- `similarityScore` from `server.js`: lower-case and trim both inputs;
equal strings score 1; otherwise `1 - distance / maxLen` (with the
degenerate `maxLen = 0` guard returning 1). -/
def similarityScore (str1 str2 : String) : ℚ :=
  if jsTrim (jsToLower str1) = jsTrim (jsToLower str2) then 1
  else if max (jsTrim (jsToLower str1)).length (jsTrim (jsToLower str2)).length = 0 then 1
  else
    1 - (levenshteinDistance (jsTrim (jsToLower str1)) (jsTrim (jsToLower str2)) : ℚ) /
      (max (jsTrim (jsToLower str1)).length (jsTrim (jsToLower str2)).length : ℚ)

/-- The regex `\w` class `[A-Za-z0-9_]`. -/
def isWordChar (c : Char) : Bool := c.isAlpha || c.isDigit || c = '_'

/-- A `\b` word boundary holds before a word character iff the previous
character (if any) is not a word character. -/
def boundaryBefore : Option Char → Bool
  | none => true
  | some c => !(isWordChar c)

/-- Try to match the keyword `w` (which starts and ends with word
characters) at the head of `s`, requiring a `\b` boundary after it; returns
the rest of `s` on success. -/
def matchWordAt (w : List Char) (s : List Char) : Option (List Char) :=
  if prefixList w s then
    match s.drop w.length with
    | [] => some []
    | c :: r => if isWordChar c then none else some (c :: r)
  else none

/-- Model of `str.replace(/\bW1\b|\bW2\b/g, repl)`: scan left to right,
at each position try the left alternative first (JS alternation order),
replace without rescanning the replacement, and continue after the matched
original characters.  `prev` is the original character before the scan
position (for the leading `\b`); `fuel` bounds the recursion and is at
least the untraversed length plus one, so it is never exhausted. -/
def replaceWordAlt (w1 w2 repl : List Char) : Nat → Option Char → List Char → List Char
  | 0, _, s => s
  | _ + 1, _, [] => []
  | fuel + 1, prev, c :: rest =>
    if boundaryBefore prev then
      match matchWordAt w1 (c :: rest) with
      | some r => repl ++ replaceWordAlt w1 w2 repl fuel (some (w1.getLastD c)) r
      | none =>
        match matchWordAt w2 (c :: rest) with
        | some r => repl ++ replaceWordAlt w1 w2 repl fuel (some (w2.getLastD c)) r
        | none => c :: replaceWordAlt w1 w2 repl fuel (some c) rest
    else c :: replaceWordAlt w1 w2 repl fuel (some c) rest

/-- Model of `str.replace(/\s+/g, " ")`: collapse every whitespace run to a
single space (fuel-bounded as above). -/
def collapseWs : Nat → List Char → List Char
  | 0, s => s
  | _ + 1, [] => []
  | fuel + 1, c :: rest =>
    if isJsWs c then ' ' :: collapseWs fuel (rest.dropWhile isJsWs)
    else c :: collapseWs fuel rest

/-- `str.replace(/\bW1\b|\bW2\b/g, repl)` at the `String` level. -/
def jsReplaceWord (s : String) (w1 w2 repl : String) : String :=
  ⟨replaceWordAlt w1.data w2.data repl.data (s.data.length + 1) none s.data⟩

/-- `normalizeString` from `server.js`: uppercase, collapse whitespace,
strip parentheses, canonicalize the four dosage-form synonym pairs by
whole-word replacement, trim; falsy input gives the empty string. -/
def normalizeString (str : String) : String :=
  if str = "" then ""
  else
    let a := jsToUpper str
    let b : String := ⟨collapseWs (a.data.length + 1) a.data⟩
    let c : String := ⟨b.data.filter (fun ch => !(ch = '(') && !(ch = ')'))⟩
    let d := jsReplaceWord c "TABLET" "TAB" "TAB"
    let e := jsReplaceWord d "CAPSULE" "CAP" "CAP"
    let f := jsReplaceWord e "INJECTION" "INJ" "INJ"
    let g := jsReplaceWord f "SYRUP" "SYR" "SYR"
    jsTrim g

/-- One record of either catalog (`GenericMedicine` / `BrandedMedicine`):
the two Prisma models share this shape, with `name` the unique key. -/
structure MedicineRecord where
  name : String
  salt : Option String
  contents : Option String
  type : Option String
  packing : Option String
  ptr : NumVal
  mrp : NumVal
  shipperSize : NumVal
deriving DecidableEq

/-- Tier-1 predicate of the search handlers: Prisma
`name: { equals: query, mode: "insensitive" }`. -/
def tier1p (query : String) (r : MedicineRecord) : Bool :=
  jsToLower r.name = jsToLower query

/-- Tier-2 predicate: Prisma `name: { contains: query, mode: "insensitive" }`
(the record's name contains the query as a substring). -/
def tier2p (query : String) (r : MedicineRecord) : Bool :=
  strIncludes (jsToLower r.name) (jsToLower query)

/-- The fuzzy-tier scan of the search handlers: walk the catalog keeping
`(bestMatch, bestScore)`, starting from `(null, 0)`; a candidate replaces
the running best only when `score > bestScore && score > 0.6`. -/
def fuzzyLoop (nq : String) : List MedicineRecord → Option MedicineRecord × ℚ →
    Option MedicineRecord × ℚ
  | [], acc => acc
  | m :: ms, acc =>
    let score := similarityScore nq (normalizeString m.name)
    if acc.2 < score ∧ (3 : ℚ)/5 < score then fuzzyLoop nq ms (some m, score)
    else fuzzyLoop nq ms acc

/-- The fuzzy tier's result: the final `bestMatch` (the threshold `0.6` of
the source is the rational `3/5`). -/
def fuzzyBest (cat : List MedicineRecord) (q : String) : Option MedicineRecord :=
  (fuzzyLoop (normalizeString q) cat (none, 0)).1

/-- The three-tier name resolution of `GET /search/branded` (and
`/search/generic`): exact insensitive match, then insensitive substring
match, then the fuzzy scan; `findFirst` is modelled as `List.find?`. -/
def resolve (cat : List MedicineRecord) (q : String) : Option MedicineRecord :=
  match cat.find? (tier1p q) with
  | some r => some r
  | none =>
    match cat.find? (tier2p q) with
    | some r => some r
    | none => fuzzyBest cat q

/-- Render a count of hundredths as a fixed two-decimal string, as
`Number.prototype.toFixed(2)` renders `n / 100`. -/
def fmtCents (n : ℤ) : String :=
  let sign := if n < 0 then "-" else ""
  let m := n.natAbs
  sign ++ toString (m / 100) ++ "." ++
    (if m % 100 < 10 then "0" ++ toString (m % 100) else toString (m % 100))

/-- Model of JS `x.toFixed(2)`: round `x` to the nearest hundredth, ties to
the larger value (ECMAScript picks the larger candidate integer). -/
def toFixed2 (q : ℚ) : String :=
  fmtCents (Int.floor (q * 100 + 1/2))

/-- The savings annotation of `GET /search/branded`:
`branded.ptr && g.ptr ? ((branded.ptr - g.ptr) / branded.ptr * 100).toFixed(2) + '%' : null`.
A falsy price (`null`, `NaN`, or `0`) on either side gives `null`. -/
def savings : NumVal → NumVal → Option String
  | .num bp, .num gp =>
    if bp ≠ 0 ∧ gp ≠ 0 then some (toFixed2 ((bp - gp) / bp * 100) ++ "%") else none
  | _, _ => none

/-- The `where` clause the code actually executes when fetching counterpart
records: the object literal `{ salt: src.salt, salt: { not: null } }` has a
duplicate `salt` key, and in JavaScript the last duplicate wins, so the
executed filter is only `salt ≠ null` — the equality with the source salt
is discarded.  (`orderBy: ptr asc` only permutes the result and is not
modelled here.) -/
def crossRefFetch (_srcSalt : Option String) (other : List MedicineRecord) :
    List MedicineRecord :=
  other.filter (fun r => r.salt ≠ none)

/-- The fetch the spec describes for cross-referencing (claim C1's words):
records whose salt is non-null and equal to the source record's salt. -/
def crossRefFetchSpec (srcSalt : Option String) (other : List MedicineRecord) :
    List MedicineRecord :=
  other.filter (fun r => r.salt ≠ none ∧ r.salt = srcSalt)

/-- A parsed spreadsheet row as handed to the upload handlers, typed per
column: the text columns arrive as strings (absent cell = `none`), the
numeric columns as raw cells.  (A numeric `PRODUCT NAME` cell would make
the JS handler throw on `.trim()`; such rows are outside this model.) -/
structure Row where
  productName : Option String
  contents : Option String
  packing : Option String
  ptr : Cell
  mrp : Cell
  shipperSize : Cell
deriving DecidableEq

/-- `row["PRODUCT NAME"]?.trim()` followed by the falsy check: the usable
row name, or `none` when the row is skipped. -/
def rowName (r : Row) : Option String :=
  match r.productName with
  | none => none
  | some s => if jsTrim s = "" then none else some (jsTrim s)

/-- The record the upload handlers derive from a row (both the `update` and
the `create` branch of the upsert write exactly these fields). -/
def deriveRecord (name : String) (row : Row) : MedicineRecord :=
  { name := name
    salt := extractSalt row.contents
    contents := cleanContents row.contents
    type := detectType (some name)
    packing := row.packing.map jsTrim
    ptr := parseFloatCell row.ptr
    mrp := parseFloatCell row.mrp
    shipperSize := parseIntCell row.shipperSize }

/-- One iteration of the upload loop: skip rows without a usable name;
otherwise `findUnique` (prior existence), `upsert` (update keeps the key,
create appends), and bump the created/updated counter. -/
def ingestRow (st : List MedicineRecord × Nat × Nat) (row : Row) :
    List MedicineRecord × Nat × Nat :=
  match rowName row with
  | none => st
  | some name =>
    let cat := st.1
    let rec0 := deriveRecord name row
    match cat.find? (fun r => r.name = name) with
    | some _ =>
      (cat.map (fun r => if r.name = name then { rec0 with name := r.name } else r),
        st.2.1, st.2.2 + 1)
    | none => (cat ++ [rec0], st.2.1 + 1, st.2.2)

/-- The upload handler body: fold the rows over the catalog with fresh
created/updated counters (one HTTP call). -/
def ingest (rows : List Row) (cat : List MedicineRecord) :
    List MedicineRecord × Nat × Nat :=
  rows.foldl ingestRow (cat, 0, 0)

theorem prefixList_iff (u : List Char) : ∀ l, prefixList u l = true ↔ ∃ r, l = u ++ r := by
  induction u with
  | nil => intro l; simp [prefixList]
  | cons a as ih =>
    intro l
    cases l with
    | nil =>
      simp only [prefixList, List.cons_append]
      constructor
      · intro h; cases h
      · rintro ⟨r, hr⟩; cases hr
    | cons b bs =>
      simp only [prefixList, Bool.and_eq_true, decide_eq_true_eq, ih, List.cons_append]
      constructor
      · rintro ⟨hab, r, hr⟩
        exact ⟨r, by rw [hab, hr]⟩
      · rintro ⟨r, hr⟩
        injection hr with h1 h2
        exact ⟨h1.symm, r, h2⟩

theorem listContains_iff (sub : List Char) :
    ∀ l, listContains sub l = true ↔ ∃ p r, l = p ++ (sub ++ r) := by
  intro l
  induction l with
  | nil =>
    simp only [listContains, prefixList_iff]
    constructor
    · rintro ⟨r, hr⟩
      exact ⟨[], r, by simpa using hr⟩
    · rintro ⟨p, r, hr⟩
      have h0 := List.append_eq_nil.mp hr.symm
      have h1 := List.append_eq_nil.mp h0.2
      exact ⟨r, by simp [h0.1, h1.1, h1.2]⟩
  | cons c rest ih =>
    simp only [listContains, Bool.or_eq_true, prefixList_iff, ih]
    constructor
    · rintro (⟨r, hr⟩ | ⟨p, r, hr⟩)
      · exact ⟨[], r, by simpa using hr⟩
      · exact ⟨c :: p, r, by simp [hr]⟩
    · rintro ⟨p, r, hr⟩
      cases p with
      | nil => exact Or.inl ⟨r, by simpa using hr⟩
      | cons x xs =>
        injection hr with h1 h2
        exact Or.inr ⟨xs, r, h2⟩

theorem strIncludes_rotacap_cap (u : String) :
    strIncludes u "ROTACAP" = true → strIncludes u "CAP" = true := by
  intro h
  rw [strIncludes, listContains_iff] at h ⊢
  obtain ⟨p, r, hr⟩ := h
  refine ⟨p ++ ['R', 'O', 'T', 'A'], r, ?_⟩
  have hd : "ROTACAP".data = ['R', 'O', 'T', 'A'] ++ "CAP".data := by decide
  rw [hr, hd]
  simp

/-- C5: `extractSalt` returns null for null/empty input and for the
sentinel tokens `#N/A`, `N/A`, `NA`; `"PARACETAMOL 500MG"` yields
`"PARACETAMOL"`, `"500MG"` yields null (no token before the first digit),
and a non-null result is never the empty string. -/
theorem extractSalt_spec :
    extractSalt none = none ∧
    extractSalt (some "") = none ∧
    extractSalt (some "#N/A") = none ∧
    extractSalt (some "N/A") = none ∧
    extractSalt (some "NA") = none ∧
    extractSalt (some "PARACETAMOL 500MG") = some "PARACETAMOL" ∧
    extractSalt (some "500MG") = none ∧
    ∀ c r, extractSalt c = some r → r ≠ "" := by
  refine ⟨rfl, by decide, by decide, by decide, by decide, by decide, by decide, ?_⟩
  intro c r h
  match c with
  | none => exact absurd h (by simp [extractSalt])
  | some s =>
    simp only [extractSalt] at h
    split at h
    · exact absurd h (by simp)
    · split at h
      · exact absurd h (by simp)
      · split at h
        · exact absurd h (by simp)
        · next hne =>
          injection h with h2
          intro hr
          apply hne
          have := congrArg String.data (h2.trans hr)
          simpa using this

/-- C5 witness: the non-null-result clause applied at the concrete input
`"PARACETAMOL 500MG"`. -/
theorem extractSalt_spec_witness :
    extractSalt (some "PARACETAMOL 500MG") = some "PARACETAMOL" ∧ "PARACETAMOL" ≠ "" :=
  ⟨by decide, extractSalt_spec.2.2.2.2.2.2.2 (some "PARACETAMOL 500MG") "PARACETAMOL" (by decide)⟩

/-- C7: `detectType` returns null on null/empty input, and classifies by
the ordered keyword groups: `"PARACETAMOL TAB"` is TABLET, `"COUGH SYRUP"`
is SYRUP, `"VITAMIN DROPS"` is DROPS, `"XYZ UNKNOWN"` is OTHER. -/
theorem detectType_spec :
    detectType none = none ∧
    detectType (some "") = none ∧
    detectType (some "PARACETAMOL TAB") = some "TABLET" ∧
    detectType (some "COUGH SYRUP") = some "SYRUP" ∧
    detectType (some "VITAMIN DROPS") = some "DROPS" ∧
    detectType (some "XYZ UNKNOWN") = some "OTHER" :=
  ⟨rfl, by decide, by decide, by decide, by decide, by decide⟩

/-- C1: the executed counterpart fetch diverges from the claim.  The
`where` object literal `{ salt: src.salt, salt: { not: null } }` collapses
(duplicate JavaScript object key, last wins) to `{ salt: { not: null } }`,
so a record whose salt differs from the source salt is still fetched, and a
null source salt fetches every non-null-salt record instead of nothing. -/
theorem crossRef_salt_filter_divergence :
    crossRefFetch none
        [⟨"IBUGESIC", some "IBUPROFEN", none, none, none, .null, .null, .null⟩]
      = [⟨"IBUGESIC", some "IBUPROFEN", none, none, none, .null, .null, .null⟩] ∧
    crossRefFetchSpec none
        [⟨"IBUGESIC", some "IBUPROFEN", none, none, none, .null, .null, .null⟩] = [] ∧
    crossRefFetch (some "PARACETAMOL")
        [⟨"IBUGESIC", some "IBUPROFEN", none, none, none, .null, .null, .null⟩]
      = [⟨"IBUGESIC", some "IBUPROFEN", none, none, none, .null, .null, .null⟩] ∧
    crossRefFetchSpec (some "PARACETAMOL")
        [⟨"IBUGESIC", some "IBUPROFEN", none, none, none, .null, .null, .null⟩] = [] :=
  ⟨by decide, by decide, by decide, by decide⟩

/-- C2 counterexample: a negative source price is truthy in JavaScript, so
the code computes a savings string instead of the null the claim demands
(`sourcePtr = -5`, `resultPtr = 10` gives `"300.00%"`). -/
theorem savings_negative_source_counterexample :
    savings (NumVal.num (-5)) (NumVal.num 10) = some "300.00%" ∧
    savings (NumVal.num (-5)) (NumVal.num 10) ≠ none := by
  have hval : (((-5 : ℚ)) - 10) / (-5) * 100 = 300 := by norm_num
  have hfl : Int.floor ((300 : ℚ) * 100 + 1 / 2) = 30000 := by
    norm_num
  have hfix : toFixed2 (300 : ℚ) = "300.00" := by
    rw [toFixed2, hfl]; decide
  have h : savings (NumVal.num (-5)) (NumVal.num 10) = some "300.00%" := by
    simp only [savings]
    rw [if_pos (by constructor <;> norm_num)]
    rw [hval, hfix]; decide
  exact ⟨h, by rw [h]; simp⟩

/-- C2 amended: savings is null whenever either price is null, `NaN`, or
zero; whenever both prices are non-null, non-`NaN` and non-zero (including
a negative source price), savings is the formula
`(sourcePtr - resultPtr) / sourcePtr * 100` rounded to two decimals with a
trailing `%`; source `ptr = 100` and counterpart `ptr = 60` give
`"40.00%"`. -/
theorem savings_spec_amended :
    (∀ v, savings NumVal.null v = none) ∧
    (∀ v, savings v NumVal.null = none) ∧
    (∀ v, savings NumVal.nan v = none) ∧
    (∀ v, savings v NumVal.nan = none) ∧
    (∀ v, savings (NumVal.num 0) v = none) ∧
    (∀ v, savings v (NumVal.num 0) = none) ∧
    (∀ bp gp, bp ≠ 0 → gp ≠ 0 →
      savings (NumVal.num bp) (NumVal.num gp)
        = some (toFixed2 ((bp - gp) / bp * 100) ++ "%")) ∧
    savings (NumVal.num 100) (NumVal.num 60) = some "40.00%" := by
  have hform : ∀ bp gp : ℚ, bp ≠ 0 → gp ≠ 0 →
      savings (NumVal.num bp) (NumVal.num gp)
        = some (toFixed2 ((bp - gp) / bp * 100) ++ "%") := by
    intro bp gp h1 h2
    simp only [savings]
    rw [if_pos ⟨h1, h2⟩]
  refine ⟨?_, ?_, ?_, ?_, ?_, ?_, hform, ?_⟩
  · intro v; cases v <;> simp [savings]
  · intro v; cases v <;> simp [savings]
  · intro v; cases v <;> simp [savings]
  · intro v; cases v <;> simp [savings]
  · intro v; cases v <;> simp [savings]
  · intro v; cases v <;> simp [savings]
  · have hval : (((100 : ℚ)) - 60) / 100 * 100 = 40 := by norm_num
    have hfl : Int.floor ((40 : ℚ) * 100 + 1 / 2) = 4000 := by norm_num
    have hfix : toFixed2 (40 : ℚ) = "40.00" := by rw [toFixed2, hfl]; decide
    rw [hform 100 60 (by norm_num) (by norm_num), hval, hfix]; decide

/-- C2 witness: the formula clause applied at source price 100 and
counterpart price 60. -/
theorem savings_spec_amended_witness :
    (100 : ℚ) ≠ 0 ∧ (60 : ℚ) ≠ 0 ∧
    savings (NumVal.num 100) (NumVal.num 60)
      = some (toFixed2 ((100 - 60) / 100 * 100) ++ "%") :=
  ⟨by norm_num, by norm_num,
    savings_spec_amended.2.2.2.2.2.2.1 100 60 (by norm_num) (by norm_num)⟩

/-- C3 counterexample: a non-numeric text cell such as `"abc"` is truthy,
so the code stores `parseFloat("abc") = NaN` (resp. `parseInt`), not the
null the claim demands. -/
theorem numeric_parse_nonnumeric_counterexample :
    parseFloatCell (Cell.str "abc") = NumVal.nan ∧
    parseIntCell (Cell.str "abc") = NumVal.nan ∧
    NumVal.nan ≠ NumVal.null :=
  ⟨by decide, by decide, by decide⟩

/-- C3 amended: `ptr`/`mrp`/`shipperSize` are null whenever the source cell
is absent, empty, or the number zero; a non-numeric text cell yields `NaN`
(not null); and parsing never aborts the row — a row with a usable name is
always upserted, whatever its numeric cells hold. -/
theorem numeric_parse_spec_amended :
    parseFloatCell Cell.absent = NumVal.null ∧
    parseFloatCell (Cell.str "") = NumVal.null ∧
    parseFloatCell (Cell.num 0) = NumVal.null ∧
    parseIntCell Cell.absent = NumVal.null ∧
    parseIntCell (Cell.str "") = NumVal.null ∧
    parseIntCell (Cell.num 0) = NumVal.null ∧
    (∀ s, s ≠ "" → jsParseFloat s = none → parseFloatCell (Cell.str s) = NumVal.nan) ∧
    (∀ s, s ≠ "" → jsParseInt s = none → parseIntCell (Cell.str s) = NumVal.nan) ∧
    (∀ row name, rowName row = some name → ingest [row] [] = ([deriveRecord name row], 1, 0)) := by
  refine ⟨rfl, by decide, by simp [parseFloatCell], rfl, by decide, by simp [parseIntCell],
    ?_, ?_, ?_⟩
  · intro s hs hp
    simp [parseFloatCell, hs, hp]
  · intro s hs hp
    simp [parseIntCell, hs, hp]
  · intro row name h
    simp [ingest, ingestRow, h]

/-- C3 witness: the `NaN` clause and the still-upserted clause applied at a
concrete row with an unparseable `PTR` cell. -/
theorem numeric_parse_spec_amended_witness :
    ("abc" ≠ "" ∧ jsParseFloat "abc" = none ∧
      parseFloatCell (Cell.str "abc") = NumVal.nan) ∧
    ingest [⟨some "CROCIN TAB", some "PARACETAMOL 500MG", none, Cell.str "abc",
        Cell.absent, Cell.absent⟩] []
      = ([deriveRecord "CROCIN TAB"
          ⟨some "CROCIN TAB", some "PARACETAMOL 500MG", none, Cell.str "abc",
            Cell.absent, Cell.absent⟩], 1, 0) :=
  ⟨⟨by decide, by decide, numeric_parse_spec_amended.2.2.2.2.2.2.1 "abc" (by decide) (by decide)⟩,
    numeric_parse_spec_amended.2.2.2.2.2.2.2.2 _ "CROCIN TAB" (by decide)⟩

/-- C9 counterexample: `"ROTACAP TAB"` contains `ROTACAP` but `detectType`
returns TABLET (the tablet keyword check runs first), not CAPSULE. -/
theorem rotacap_counterexample :
    strIncludes (jsToUpper "ROTACAP TAB") "ROTACAP" = true ∧
    detectType (some "ROTACAP TAB") = some "TABLET" ∧
    detectType (some "ROTACAP TAB") ≠ some "CAPSULE" :=
  ⟨by decide, by decide, by decide⟩

/-- C9 amended: a name containing `ROTACAP` always classifies as TABLET
(when a tablet keyword also occurs) or CAPSULE (since `ROTACAP` contains
`CAP` and the capsule check precedes the inhaler check) — never INHALER, so
the `ROTACAP` inhaler keyword by itself can never produce INHALER. -/
theorem rotacap_amended (s : String)
    (h : strIncludes (jsToUpper s) "ROTACAP" = true) :
    (detectType (some s) = some "TABLET" ∨ detectType (some s) = some "CAPSULE") ∧
    detectType (some s) ≠ some "INHALER" := by
  have hs : s ≠ "" := by
    rintro rfl
    exact absurd h (by decide)
  have hcap : strIncludes (jsToUpper s) "CAP" = true := strIncludes_rotacap_cap _ h
  by_cases htab : (strIncludes (jsToUpper s) "TAB" || strIncludes (jsToUpper s) "TABLET") = true
  · have : detectType (some s) = some "TABLET" := by
      simp only [detectType, if_neg hs, htab, if_true]
    rw [this]
    exact ⟨Or.inl rfl, by simp⟩
  · have : detectType (some s) = some "CAPSULE" := by
      simp only [detectType, if_neg hs]
      rw [if_neg (by simpa using htab), if_pos (by simp [hcap])]
    rw [this]
    exact ⟨Or.inr rfl, by simp⟩

/-- C9 witness: the amended claim applied at the bare name `"ROTACAP"`. -/
theorem rotacap_amended_witness :
    strIncludes (jsToUpper "ROTACAP") "ROTACAP" = true ∧
    ((detectType (some "ROTACAP") = some "TABLET" ∨
      detectType (some "ROTACAP") = some "CAPSULE") ∧
      detectType (some "ROTACAP") ≠ some "INHALER") :=
  ⟨by decide, rotacap_amended "ROTACAP" (by decide)⟩

theorem fuzzyLoop_noupdate (nq : String) :
    ∀ (ms : List MedicineRecord) (acc : Option MedicineRecord × ℚ),
      (∀ m ∈ ms, similarityScore nq (normalizeString m.name) ≤ acc.2 ∨
        similarityScore nq (normalizeString m.name) ≤ 3/5) →
      fuzzyLoop nq ms acc = acc := by
  intro ms
  induction ms with
  | nil => intro acc _; rfl
  | cons m ms ih =>
    intro acc h
    have hm := h m (by simp)
    simp only [fuzzyLoop]
    rw [if_neg]
    · exact ih acc (fun x hx => h x (by simp [hx]))
    · rintro ⟨h1, h2⟩
      rcases hm with hm | hm
      · exact absurd h1 (not_lt.mpr hm)
      · exact absurd h2 (not_lt.mpr hm)

theorem fuzzyLoop_inv (nq : String) :
    ∀ (ms : List MedicineRecord) (acc : Option MedicineRecord × ℚ),
      (acc.1 = none ∨ ∃ m, acc.1 = some m ∧
        acc.2 = similarityScore nq (normalizeString m.name) ∧ 3/5 < acc.2) →
      ((fuzzyLoop nq ms acc).1 = none ∨
        ∃ m, (fuzzyLoop nq ms acc).1 = some m ∧
          (fuzzyLoop nq ms acc).2 = similarityScore nq (normalizeString m.name) ∧
          3/5 < (fuzzyLoop nq ms acc).2) := by
  intro ms
  induction ms with
  | nil => exact fun acc h => h
  | cons m ms ih =>
    intro acc h
    simp only [fuzzyLoop]
    split
    · next hcond => exact ih _ (Or.inr ⟨m, rfl, rfl, hcond.2⟩)
    · exact ih acc h

/-- C4: the three resolution tiers run in source order with the first
success winning: a catalog holding a case-insensitive exact match resolves
to the first such record (tier 1, regardless of any fuzzy score); when
tiers 1 and 2 miss, the result is the fuzzy scan's; a fuzzy winner always
scores strictly above `3/5 = 0.6`; if no record exceeds the threshold the
fuzzy tier (and hence resolution) fails; and the first-encountered record
wins ties, because an update needs a score strictly above the running
best. -/
theorem resolve_tiered_spec (cat : List MedicineRecord) (q : String) :
    ((∃ r ∈ cat, tier1p q r = true) →
      resolve cat q = cat.find? (tier1p q) ∧ (resolve cat q).isSome = true ∧
      ∀ r0, resolve cat q = some r0 → tier1p q r0 = true) ∧
    (cat.find? (tier1p q) = none → cat.find? (tier2p q) = none →
      resolve cat q = fuzzyBest cat q) ∧
    (∀ m, fuzzyBest cat q = some m →
      3/5 < similarityScore (normalizeString q) (normalizeString m.name)) ∧
    ((∀ m ∈ cat, similarityScore (normalizeString q) (normalizeString m.name) ≤ 3/5) →
      fuzzyBest cat q = none) ∧
    (∀ a rest, cat = a :: rest →
      3/5 < similarityScore (normalizeString q) (normalizeString a.name) →
      (∀ m ∈ rest, similarityScore (normalizeString q) (normalizeString m.name) ≤
        similarityScore (normalizeString q) (normalizeString a.name)) →
      fuzzyBest cat q = some a) := by
  refine ⟨?_, ?_, ?_, ?_, ?_⟩
  · intro h
    have hsome : (cat.find? (tier1p q)).isSome = true := by
      rw [List.find?_isSome]
      obtain ⟨r, hr, hp⟩ := h
      exact ⟨r, hr, hp⟩
    obtain ⟨r0, hr0⟩ := Option.isSome_iff_exists.mp hsome
    have hres : resolve cat q = some r0 := by
      simp only [resolve, hr0]
    refine ⟨by rw [hres, hr0], by rw [hres]; rfl, ?_⟩
    intro r1 h1
    have : some r0 = some r1 := hres.symm.trans h1
    injection this with h2
    exact h2 ▸ List.find?_some hr0
  · intro h1 h2
    simp only [resolve, h1, h2]
  · intro m hm
    have := fuzzyLoop_inv (normalizeString q) cat (none, 0) (Or.inl rfl)
    rw [fuzzyBest] at hm
    rcases this with h | ⟨m1, he, hs, hgt⟩
    · rw [hm] at h; cases h
    · rw [hm] at he
      injection he with he2
      rw [he2, ← hs]
      exact hgt
  · intro h
    have : fuzzyLoop (normalizeString q) cat (none, 0) = (none, 0) :=
      fuzzyLoop_noupdate _ cat (none, 0) (fun m hm => Or.inr (h m hm))
    rw [fuzzyBest, this]
  · intro a rest hcat hgt hmax
    subst hcat
    have h0 : ((0 : ℚ) < similarityScore (normalizeString q) (normalizeString a.name)) :=
      lt_trans (by norm_num) hgt
    simp only [fuzzyBest, fuzzyLoop]
    split
    · rw [fuzzyLoop_noupdate (normalizeString q) rest
        (some a, similarityScore (normalizeString q) (normalizeString a.name))
        (fun m hm => Or.inl (hmax m hm))]
    · next hcond => exact absurd ⟨h0, hgt⟩ hcond

/-- A sample catalog record for the concrete resolver witness. -/
def crocinRecord : MedicineRecord :=
  ⟨"CROCIN", some "PARACETAMOL", some "PARACETAMOL 500MG", some "TABLET", none,
    NumVal.null, NumVal.null, NumVal.null⟩

/-- C4 witness: the exact-tier clause applied to a one-record catalog and
the query `"crocin"`. -/
theorem resolve_tiered_spec_witness :
    (∃ r ∈ [crocinRecord], tier1p "crocin" r = true) ∧
    (resolve [crocinRecord] "crocin" = [crocinRecord].find? (tier1p "crocin") ∧
      (resolve [crocinRecord] "crocin").isSome = true ∧
      ∀ r0, resolve [crocinRecord] "crocin" = some r0 → tier1p "crocin" r0 = true) :=
  ⟨by decide, (resolve_tiered_spec [crocinRecord] "crocin").1 (by decide)⟩

/-- C8: ingesting the same row twice into an empty catalog creates once and
updates once (`created = 1, updated = 0` then `created = 0, updated = 1`),
and the catalog after the second call is identical to the catalog after the
first — in particular the stored derived fields (all recomputed by the pure
`extractSalt`/`cleanContents`/`detectType` on the same input) are
identical. -/
theorem ingest_idempotent (row : Row) (name : String) (h : rowName row = some name) :
    ingest [row] [] = ([deriveRecord name row], 1, 0) ∧
    ingest [row] (ingest [row] []).1 = ([deriveRecord name row], 0, 1) ∧
    (ingest [row] (ingest [row] []).1).1 = (ingest [row] []).1 := by
  have h1 : ingest [row] [] = ([deriveRecord name row], 1, 0) := by
    simp [ingest, ingestRow, h]
  have h2 : ingest [row] [deriveRecord name row] = ([deriveRecord name row], 0, 1) := by
    simp [ingest, ingestRow, h, deriveRecord]
  rw [h1]
  exact ⟨rfl, h2, by rw [h2]⟩

/-- C8 witness: the idempotence theorem applied at a concrete row. -/
theorem ingest_idempotent_witness :
    rowName ⟨some "CROCIN TAB", some "PARACETAMOL 500MG", some "10S", Cell.str "30",
        Cell.str "35", Cell.str "5"⟩ = some "CROCIN TAB" ∧
    (ingest [⟨some "CROCIN TAB", some "PARACETAMOL 500MG", some "10S", Cell.str "30",
        Cell.str "35", Cell.str "5"⟩] []
      = ([deriveRecord "CROCIN TAB"
          ⟨some "CROCIN TAB", some "PARACETAMOL 500MG", some "10S", Cell.str "30",
            Cell.str "35", Cell.str "5"⟩], 1, 0) ∧
      ingest [⟨some "CROCIN TAB", some "PARACETAMOL 500MG", some "10S", Cell.str "30",
          Cell.str "35", Cell.str "5"⟩]
        (ingest [⟨some "CROCIN TAB", some "PARACETAMOL 500MG", some "10S", Cell.str "30",
          Cell.str "35", Cell.str "5"⟩] []).1
      = ([deriveRecord "CROCIN TAB"
          ⟨some "CROCIN TAB", some "PARACETAMOL 500MG", some "10S", Cell.str "30",
            Cell.str "35", Cell.str "5"⟩], 0, 1) ∧
      (ingest [⟨some "CROCIN TAB", some "PARACETAMOL 500MG", some "10S", Cell.str "30",
          Cell.str "35", Cell.str "5"⟩]
        (ingest [⟨some "CROCIN TAB", some "PARACETAMOL 500MG", some "10S", Cell.str "30",
          Cell.str "35", Cell.str "5"⟩] []).1).1
      = (ingest [⟨some "CROCIN TAB", some "PARACETAMOL 500MG", some "10S", Cell.str "30",
          Cell.str "35", Cell.str "5"⟩] []).1) :=
  ⟨by decide, ingest_idempotent _ "CROCIN TAB" (by decide)⟩

theorem levRec_nil_right : ∀ u : List Char, levRec u [] = u.length := by
  intro u
  cases u with
  | nil => simp [levRec]
  | cons a s => simp [levRec]

theorem levRec_symm : ∀ s t : List Char, levRec s t = levRec t s := by
  intro s
  induction s with
  | nil =>
    intro t
    rw [levRec_nil_right]
    simp [levRec]
  | cons a s ihs =>
    intro t
    induction t with
    | nil =>
      rw [levRec_nil_right]
      simp [levRec]
    | cons b t iht =>
      simp only [levRec]
      have hc : (if a = b then 0 else 1) = (if b = a then 0 else 1) := by
        by_cases hab : a = b
        · simp [hab]
        · rw [if_neg hab, if_neg (fun h => hab h.symm)]
      rw [ihs (b :: t), iht, ihs t, hc,
        min_comm (levRec (b :: t) s + 1) (levRec t (a :: s) + 1)]

theorem levRec_le_max : ∀ s t : List Char, levRec s t ≤ max s.length t.length := by
  intro s
  induction s with
  | nil => intro t; simp [levRec]
  | cons a s ihs =>
    intro t
    induction t with
    | nil =>
      rw [levRec_nil_right]
      simp
    | cons b t _ =>
      simp only [levRec]
      refine le_trans (min_le_right _ _) ?_
      have h := ihs t
      have h2 : levRec s t + (if a = b then 0 else 1) ≤ max s.length t.length + 1 := by
        split <;> omega
      refine le_trans h2 ?_
      simp only [List.length_cons]
      rcases Nat.le_total s.length t.length with hle | hle
      · rw [max_eq_right hle, max_eq_right (by omega : s.length + 1 ≤ t.length + 1)]
      · rw [max_eq_left hle, max_eq_left (by omega : t.length + 1 ≤ s.length + 1)]

/-- The row of `levRec` values against successively longer reversed
prefixes of the remaining second string: `acc` is the reversed consumed
prefix. -/
def rowOf (u : List Char) : List Char → List Char → List Nat
  | acc, [] => [levRec u acc]
  | acc, y :: ys => levRec u acc :: rowOf u (y :: acc) ys

theorem rowOf_shape (u acc τ : List Char) :
    rowOf u acc τ = levRec u acc :: (rowOf u acc τ).tail := by
  cases τ <;> rfl

theorem levInner_spec (c : Char) (u : List Char) :
    ∀ (τ acc : List Char),
      levInner c τ (rowOf u acc τ) (levRec (c :: u) acc) = (rowOf (c :: u) acc τ).tail := by
  intro τ
  induction τ with
  | nil => intro acc; rfl
  | cons y ys ih =>
    intro acc
    show levInner c (y :: ys) (levRec u acc :: rowOf u (y :: acc) ys) (levRec (c :: u) acc)
        = rowOf (c :: u) (y :: acc) ys
    rw [rowOf_shape u (y :: acc) ys]
    simp only [levInner]
    have hv : min (min (levRec u (y :: acc) + 1) (levRec (c :: u) acc + 1))
        (levRec u acc + (if c = y then 0 else 1)) = levRec (c :: u) (y :: acc) := by
      simp only [levRec]
    rw [hv, ← rowOf_shape u (y :: acc) ys, ih (y :: acc)]
    exact (rowOf_shape (c :: u) (y :: acc) ys).symm

theorem levRows_spec (t : List Char) :
    ∀ (s u : List Char),
      levRows t s (rowOf u [] t) (u.length + 1) = rowOf (s.reverseAux u) [] t := by
  intro s
  induction s with
  | nil => intro u; rfl
  | cons c cs ih =>
    intro u
    show levRows t cs ((u.length + 1) :: levInner c t (rowOf u [] t) (u.length + 1))
        (u.length + 1 + 1) = rowOf (cs.reverseAux (c :: u)) [] t
    have hl : levRec (c :: u) [] = u.length + 1 := by simp [levRec]
    rw [← hl, levInner_spec c u t [], ← rowOf_shape (c :: u) [] t, hl]
    exact ih (c :: u)

theorem rowOf_nil_eq_range : ∀ (τ acc : List Char),
    rowOf [] acc τ = List.range' acc.length (τ.length + 1) := by
  intro τ
  induction τ with
  | nil =>
    intro acc
    show [levRec [] acc] = List.range' acc.length 1
    simp [levRec, List.range']
  | cons y ys ih =>
    intro acc
    show levRec [] acc :: rowOf [] (y :: acc) ys = List.range' acc.length (ys.length + 1 + 1)
    rw [ih (y :: acc)]
    show levRec [] acc :: List.range' (acc.length + 1) (ys.length + 1)
        = List.range' acc.length (ys.length + 1 + 1)
    conv_rhs => rw [List.range'_succ]
    simp [levRec]

theorem rowOf_getLastD (u : List Char) :
    ∀ (τ acc : List Char) (d : Nat),
      (rowOf u acc τ).getLastD d = levRec u (τ.reverse ++ acc) := by
  intro τ
  induction τ with
  | nil => intro acc d; simp [rowOf]
  | cons y ys ih =>
    intro acc d
    show (levRec u acc :: rowOf u (y :: acc) ys).getLastD d = _
    rw [List.getLastD_cons, ih (y :: acc) (levRec u acc)]
    congr 1
    simp

theorem levenshteinDistance_eq_levRec (a b : String) :
    levenshteinDistance a b = levRec a.data.reverse b.data.reverse := by
  have hrow : List.range (b.data.length + 1) = rowOf [] [] b.data := by
    rw [List.range_eq_range', rowOf_nil_eq_range b.data []]
    rfl
  show (levRows b.data a.data (List.range (b.data.length + 1)) 1).getLastD 0 = _
  rw [hrow]
  show (levRows b.data a.data (rowOf [] [] b.data) (([] : List Char).length + 1)).getLastD 0
      = levRec a.data.reverse b.data.reverse
  rw [levRows_spec b.data a.data [], rowOf_getLastD]
  show levRec (a.data.reverseAux []) (b.data.reverse ++ []) = _
  rw [List.append_nil]
  rfl

theorem levenshteinDistance_symm (a b : String) :
    levenshteinDistance a b = levenshteinDistance b a := by
  rw [levenshteinDistance_eq_levRec, levenshteinDistance_eq_levRec, levRec_symm]

theorem levenshteinDistance_le_max (a b : String) :
    levenshteinDistance a b ≤ max a.length b.length := by
  rw [levenshteinDistance_eq_levRec]
  have h := levRec_le_max a.data.reverse b.data.reverse
  rw [List.length_reverse, List.length_reverse] at h
  exact h

theorem eq_empty_of_length_zero (s : String) (h : s.length = 0) : s = "" := by
  cases s with
  | mk data =>
    have : data = [] := List.length_eq_zero.mp h
    rw [this]

/-- C10: `similarityScore` is symmetric in its two arguments — the
Levenshtein distance and the max-length denominator are symmetric, and the
equality and zero-length guards are as well. -/
theorem similarityScore_symm (a b : String) :
    similarityScore a b = similarityScore b a := by
  unfold similarityScore
  by_cases h : jsTrim (jsToLower a) = jsTrim (jsToLower b)
  · rw [if_pos h, if_pos h.symm]
  · have hba : ¬ (jsTrim (jsToLower b) = jsTrim (jsToLower a)) := fun e => h e.symm
    rw [if_neg h, if_neg hba]
    by_cases hm : max (jsTrim (jsToLower a)).length (jsTrim (jsToLower b)).length = 0
    · have hm2 : max (jsTrim (jsToLower b)).length (jsTrim (jsToLower a)).length = 0 := by
        rwa [max_comm] at hm
      rw [if_pos hm, if_pos hm2]
    · have hm2 : ¬ max (jsTrim (jsToLower b)).length (jsTrim (jsToLower a)).length = 0 := by
        rwa [max_comm] at hm
      rw [if_neg hm, if_neg hm2]
      rw [levenshteinDistance_symm,
        max_comm (((jsTrim (jsToLower a)).length : ℚ)) (((jsTrim (jsToLower b)).length : ℚ))]

/-- C6: `similarityScore` always lies in `[0, 1]`; it is `1` exactly on
equal lower-cased trimmed inputs (in particular two empty strings), and
otherwise equals `1 - distance / maxLen` over the lower-cased trimmed
inputs; the distance between `"KITTEN"` and `"SITTING"` is 3, giving score
`4/7`, which is below the fuzzy threshold `3/5 = 0.6`. -/
theorem similarityScore_spec :
    (∀ a b, 0 ≤ similarityScore a b ∧ similarityScore a b ≤ 1) ∧
    (∀ a b, jsTrim (jsToLower a) = jsTrim (jsToLower b) → similarityScore a b = 1) ∧
    (∀ a b, jsTrim (jsToLower a) ≠ jsTrim (jsToLower b) →
      similarityScore a b
        = 1 - (levenshteinDistance (jsTrim (jsToLower a)) (jsTrim (jsToLower b)) : ℚ) /
            (max (jsTrim (jsToLower a)).length (jsTrim (jsToLower b)).length : ℚ)) ∧
    similarityScore "" "" = 1 ∧
    similarityScore "CROCIN" "CROCIN" = 1 ∧
    levenshteinDistance "KITTEN" "SITTING" = 3 ∧
    similarityScore "KITTEN" "SITTING" = 4/7 ∧
    (4 : ℚ)/7 < 3/5 := by
  have hformula : ∀ a b, jsTrim (jsToLower a) ≠ jsTrim (jsToLower b) →
      similarityScore a b
        = 1 - (levenshteinDistance (jsTrim (jsToLower a)) (jsTrim (jsToLower b)) : ℚ) /
            (max (jsTrim (jsToLower a)).length (jsTrim (jsToLower b)).length : ℚ) := by
    intro a b h
    have hmaxne : max (jsTrim (jsToLower a)).length (jsTrim (jsToLower b)).length ≠ 0 := by
      intro hmax
      obtain ⟨h1, h2⟩ := Nat.max_eq_zero_iff.mp hmax
      exact h ((eq_empty_of_length_zero _ h1).trans (eq_empty_of_length_zero _ h2).symm)
    unfold similarityScore
    rw [if_neg h, if_neg hmaxne]
  have hbounds : ∀ a b, 0 ≤ similarityScore a b ∧ similarityScore a b ≤ 1 := by
    intro a b
    by_cases h : jsTrim (jsToLower a) = jsTrim (jsToLower b)
    · have : similarityScore a b = 1 := by
        simp only [similarityScore]; rw [if_pos h]
      rw [this]; norm_num
    · rw [hformula a b h]
      have hmaxne : max (jsTrim (jsToLower a)).length (jsTrim (jsToLower b)).length ≠ 0 := by
        intro hmax
        obtain ⟨h1, h2⟩ := Nat.max_eq_zero_iff.mp hmax
        exact h ((eq_empty_of_length_zero _ h1).trans (eq_empty_of_length_zero _ h2).symm)
      have hm : (0 : ℚ) <
          (max (jsTrim (jsToLower a)).length (jsTrim (jsToLower b)).length : ℚ) := by
        exact_mod_cast Nat.pos_of_ne_zero hmaxne
      have hd : (levenshteinDistance (jsTrim (jsToLower a)) (jsTrim (jsToLower b)) : ℚ)
          ≤ (max (jsTrim (jsToLower a)).length (jsTrim (jsToLower b)).length : ℚ) := by
        exact_mod_cast levenshteinDistance_le_max (jsTrim (jsToLower a)) (jsTrim (jsToLower b))
      have hq1 : (levenshteinDistance (jsTrim (jsToLower a)) (jsTrim (jsToLower b)) : ℚ) /
          (max (jsTrim (jsToLower a)).length (jsTrim (jsToLower b)).length : ℚ) ≤ 1 :=
        (div_le_one hm).mpr hd
      have hq0 : (0 : ℚ) ≤
          (levenshteinDistance (jsTrim (jsToLower a)) (jsTrim (jsToLower b)) : ℚ) /
            (max (jsTrim (jsToLower a)).length (jsTrim (jsToLower b)).length : ℚ) :=
        div_nonneg (Nat.cast_nonneg _) (le_of_lt hm)
      constructor <;> linarith
  have hkit : similarityScore "KITTEN" "SITTING" = 4/7 := by
    have hne : jsTrim (jsToLower "KITTEN") ≠ jsTrim (jsToLower "SITTING") := by decide
    rw [hformula _ _ hne]
    have e1 : levenshteinDistance (jsTrim (jsToLower "KITTEN")) (jsTrim (jsToLower "SITTING"))
        = 3 := by decide
    have e2a : ((jsTrim (jsToLower "KITTEN")).length : ℚ) = 6 := by
      have h6 : (jsTrim (jsToLower "KITTEN")).length = 6 := by decide
      exact_mod_cast h6
    have e2b : ((jsTrim (jsToLower "SITTING")).length : ℚ) = 7 := by
      have h7 : (jsTrim (jsToLower "SITTING")).length = 7 := by decide
      exact_mod_cast h7
    rw [e1, e2a, e2b, max_eq_right (by norm_num : (6 : ℚ) ≤ 7)]
    norm_num
  have heq : ∀ a b, jsTrim (jsToLower a) = jsTrim (jsToLower b) → similarityScore a b = 1 := by
    intro a b h
    simp only [similarityScore]
    rw [if_pos h]
  exact ⟨hbounds, heq, hformula, heq "" "" rfl, heq "CROCIN" "CROCIN" rfl,
    by decide, hkit, by norm_num⟩

/-- C6 witness: the otherwise-branch formula applied at the concrete inputs
`"KITTEN"` and `"SITTING"`. -/
theorem similarityScore_spec_witness :
    jsTrim (jsToLower "KITTEN") ≠ jsTrim (jsToLower "SITTING") ∧
    similarityScore "KITTEN" "SITTING"
      = 1 - (levenshteinDistance (jsTrim (jsToLower "KITTEN"))
            (jsTrim (jsToLower "SITTING")) : ℚ) /
          (max (jsTrim (jsToLower "KITTEN")).length (jsTrim (jsToLower "SITTING")).length : ℚ) :=
  ⟨by decide, similarityScore_spec.2.2.1 "KITTEN" "SITTING" (by decide)⟩

example : levenshteinDistance "KITTEN" "SITTING" = 3 := by decide
example : levenshteinDistance "CROCIN" "CROCIN" = 0 := by decide
example : normalizeString "Paracetamol  (500mg) Tablet" = "PARACETAMOL 500MG TAB" := by decide
example : normalizeString "TABX TAB" = "TABX TAB" := by decide
example : extractSalt (some "PARACETAMOL 500MG") = some "PARACETAMOL" := by decide
example : extractSalt (some "N/A") = none := by decide
example : extractSalt (some "500MG") = none := by decide
example : extractSalt none = none := by decide
example : detectType (some "PARACETAMOL TAB") = some "TABLET" := by decide
example : detectType (some "COUGH SYRUP") = some "SYRUP" := by decide
example : detectType (some "VITAMIN DROPS") = some "DROPS" := by decide
example : detectType (some "XYZ UNKNOWN") = some "OTHER" := by decide
example : detectType (some "ROTACAP") = some "CAPSULE" := by decide
example : parseFloatCell (.str "abc") = .nan := by decide
example : cleanContents (some "  #N/A ") = none := by decide

end GenericBE
